import Mathlib

/-!
Shallow embedding of the structure-cache-and-geometric-descriptor pipeline of
`src/v1/protein.py` (with its predictor wrapper `src/qres/fold.py` treated as an
opaque batch function), together with theorems settling the specification
claims about it.

Modelling conventions:
* Python machine floats are modelled as exact rationals `ℚ`; `Option ℚ` is used
  where IEEE division can produce a non-finite value (`none` stands for the
  NaN/Inf results of dividing by a zero norm; `some q` is a finite value).
* `np.sqrt` / `np.linalg.norm` are modelled by an explicit parameter
  `sqrtQ : ℚ → ℚ`; theorems assume only the algebraic facts they need about it
  (for example `sqrtQ 0 = 0`).
* The file system used by the PDB cache is a map `String → Option String` from
  paths to file contents; `open(path, "w")` followed by `write` is a functional
  update of that map.
* CPython's builtin `hash` on `str` (used by `make_pdb_path`) is the
  per-process-salted SipHash-1-3 of `Python/pyhash.c`; it is embedded exactly,
  parameterised by the two 64-bit salt words `k0 k1` that CPython draws at
  interpreter start-up (or from `PYTHONHASHSEED`).
* PDB parsing is an external collaborator: the geometric functions are embedded
  from the residue-list level, a residue being its hetero-flag field
  (`residue.id[0]`) plus its named atom coordinates.
-/

/-! ### CPython string hashing (`Python/pyhash.c`, siphash13) -/

/-- 64-bit modular addition. -/
def add64 (a b : Nat) : Nat := (a + b) % 2 ^ 64

/-- 64-bit left rotation by `r` (for `0 < r < 64`). -/
def rotl64 (r a : Nat) : Nat := ((a <<< r) % 2 ^ 64) ||| (a >>> (64 - r))

/-- The SipHash `HALF_ROUND(a,b,c,d,s,t)` macro: two additions, two xors with
rotations, and the rotation of `a` by 32. -/
def halfRound (a b c d s t : Nat) : Nat × Nat × Nat × Nat :=
  let a := add64 a b
  let c := add64 c d
  let b := (rotl64 s b) ^^^ a
  let d := (rotl64 t d) ^^^ c
  let a := rotl64 32 a
  (a, b, c, d)

/-- The SipHash `SINGLE_ROUND` macro: `HALF_ROUND(v0,v1,v2,v3,13,16)` followed
by `HALF_ROUND(v2,v1,v0,v3,17,21)`. -/
def singleRound : Nat × Nat × Nat × Nat → Nat × Nat × Nat × Nat
  | (v0, v1, v2, v3) =>
    let (v0, v1, v2, v3) := halfRound v0 v1 v2 v3 13 16
    let (a, b, c, d) := halfRound v2 v1 v0 v3 17 21
    (c, b, a, d)

/-- Little-endian word value of a byte list (first byte is least significant),
as used both for the 8-byte message words and for the trailing bytes. -/
def le64 (bs : List Nat) : Nat := bs.foldr (fun b acc => b + 256 * acc) 0

/-- The message-consuming loop of `siphash13`: fold full 8-byte words into the
state; return the final state together with the little-endian value of the
trailing (fewer than 8) bytes. -/
def sipLoop : Nat × Nat × Nat × Nat → List Nat → (Nat × Nat × Nat × Nat) × Nat
  | v, b0 :: b1 :: b2 :: b3 :: b4 :: b5 :: b6 :: b7 :: rest =>
    let mi := le64 [b0, b1, b2, b3, b4, b5, b6, b7]
    let (v0, v1, v2, v3) := v
    let v3 := v3 ^^^ mi
    let (v0, v1, v2, v3) := singleRound (v0, v1, v2, v3)
    let v0 := v0 ^^^ mi
    sipLoop (v0, v1, v2, v3) rest
  | v, rest => (v, le64 rest)

/-- `siphash13(k0, k1, src, src_sz)` from CPython's `Python/pyhash.c`:
the default string-hash core of CPython 3.11+. -/
def siphash13 (k0 k1 : Nat) (msg : List Nat) : Nat :=
  let b := ((msg.length % 256) * 2 ^ 56) % 2 ^ 64
  let v0 := k0 ^^^ 0x736f6d6570736575
  let v1 := k1 ^^^ 0x646f72616e646f6d
  let v2 := k0 ^^^ 0x6c7967656e657261
  let v3 := k1 ^^^ 0x7465646279746573
  let (v, t) := sipLoop (v0, v1, v2, v3) msg
  let b := b ||| t
  let (v0, v1, v2, v3) := v
  let v3 := v3 ^^^ b
  let (v0, v1, v2, v3) := singleRound (v0, v1, v2, v3)
  let v0 := v0 ^^^ b
  let v2 := v2 ^^^ 0xff
  let (v0, v1, v2, v3) := singleRound (v0, v1, v2, v3)
  let (v0, v1, v2, v3) := singleRound (v0, v1, v2, v3)
  let (v0, v1, v2, v3) := singleRound (v0, v1, v2, v3)
  (v0 ^^^ v1) ^^^ (v2 ^^^ v3)

/-- CPython's builtin `hash` on an ASCII `str` (`unicode_hash` plus
`_Py_HashBytes`): the empty string hashes to `0`; otherwise the salted
SipHash-1-3 of the one-byte-per-character representation, reinterpreted as a
signed 64-bit integer, with `-1` mapped to `-2`. `k0 k1` are the per-process
hash-secret words, random at each interpreter start unless `PYTHONHASHSEED`
pins them. -/
def pyHashStr (k0 k1 : Nat) (s : String) : Int :=
  if s.length = 0 then 0
  else
    let h := siphash13 k0 k1 (s.data.map Char.toNat)
    let signed : Int := if h < 2 ^ 63 then (h : Int) else (h : Int) - 2 ^ 64
    if signed = -1 then -2 else signed

/-! ### The PDB cache (`src/v1/protein.py` lines 10-44) -/

/-- `PDB_CACHE_PATH / f"P{hashed_sequence}.pdb"` for
`hashed_sequence = hash(sequence)` (`make_pdb_path`, protein.py lines 19-22);
the cache directory is rendered as the path prefix `pdb/`. -/
def make_pdb_path (k0 k1 : Nat) (sequence : String) : String :=
  "pdb/P" ++ toString (pyHashStr k0 k1 sequence) ++ ".pdb"

/-- The cache's durable storage: a map from file path to file contents
(`none` = no such file). -/
abbrev FileSys : Type := String → Option String

/-- `open(path, "w"); f.write(content)`: functional update of the store. -/
def writeFile (fs : FileSys) (path content : String) : FileSys :=
  fun p => if p = path then some content else fs p

/-- The `for sequence, pdb in zip(sequences, pdbs): ... f.write(pdb)` loop of
`generate_pdbs` (protein.py lines 29-32): writes each pdb under its sequence's
path; `zip` truncation on unequal lengths is kept. -/
def write_pdbs (k0 k1 : Nat) (fs : FileSys) : List String → List String → FileSys
  | s :: ss, p :: ps => write_pdbs k0 k1 (writeFile fs (make_pdb_path k0 k1 s) p) ss ps
  | _, _ => fs

/-- Result of a `generate_pdbs` call: the store after its writes, the value it
returns, and the trace of predictor invocations it made (each entry is the
batch passed to `infer_structure_batch`). -/
structure GenResult where
  fs : FileSys
  pdbs : List String
  predictorCalls : List (List String)

/-- `generate_pdbs(sequences)` (protein.py lines 27-33): calls
`infer_structure_batch` once on the whole input (`predict` is the opaque
predictor of `src/qres/fold.py`), writes each returned pdb under its
sequence's path, and returns the predictor's output. Note the code never
reads the cache: the input store is consulted by no branch. -/
def generate_pdbs (predict : List String → List String) (k0 k1 : Nat)
    (fs : FileSys) (sequences : List String) : GenResult :=
  let pdbs := predict sequences
  { fs := write_pdbs k0 k1 fs sequences pdbs
    pdbs := pdbs
    predictorCalls := [sequences] }

/-- The read loop of `load_pdbs` (protein.py lines 37-44): accumulates the
cached file contents in order, raising `FileNotFoundError` at the first
sequence whose path is absent. -/
def load_pdbs_loop (k0 k1 : Nat) (fs : FileSys) : List String → Except String (List String)
  | [] => Except.ok []
  | s :: rest =>
    match fs (make_pdb_path k0 k1 s) with
    | some content => (load_pdbs_loop k0 k1 fs rest).map (content :: ·)
    | none => Except.error ("Could not find PDB file for sequence " ++ s)

/-- `load_pdbs(sequences)` (protein.py lines 35-44): runs the read loop, but
the function body ends without a `return` statement, so on success Python
returns `None` (modelled `Option.none`) and the accumulated `pdbs` list is
discarded. -/
def load_pdbs (k0 k1 : Nat) (fs : FileSys) (sequences : List String) :
    Except String (Option (List String)) :=
  (load_pdbs_loop k0 k1 fs sequences).map (fun _ => none)

/-! ### Geometric descriptors (`src/v1/protein.py` lines 15-16, 47-190) -/

/-- `AMINO_ACID_LENGTH_ANGSTROM = 3.8` (protein.py line 12). -/
def AMINO_ACID_LENGTH_ANGSTROM : ℚ := 38 / 10

/-- `get_max_physical_protein_length_A(n_amino_acids)` (protein.py
lines 15-16): `(n_amino_acids - 1) * AMINO_ACID_LENGTH_ANGSTROM`, with the
integer argument promoted to an exact rational. -/
def get_max_physical_protein_length_A (n_amino_acids : ℕ) : ℚ :=
  ((n_amino_acids : ℚ) - 1) * AMINO_ACID_LENGTH_ANGSTROM

/-- The maximum-physical-length formula as the specification words it:
`(nResidues - 1) * 3.8` angstroms for `nResidues >= 1`, the count difference
taken over the naturals. -/
def spec_max_physical_length (nResidues : ℕ) : ℚ :=
  ((nResidues - 1 : ℕ) : ℚ) * (38 / 10)

/-- A 3D coordinate, each component an exact rational. -/
abbrev Vec3 : Type := ℚ × ℚ × ℚ

/-- A parsed residue as the geometric functions consume it: the hetero-flag
field `residue.id[0]` (`" "` for a standard residue) and the residue's named
atom coordinates. Parsing serialized PDB text into this form is the external
Structure Parser. -/
structure Residue where
  het : String
  atoms : List (String × Vec3)

/-- `"CA" in residue`. -/
def hasCA (r : Residue) : Bool := r.atoms.any (fun a => a.1 == "CA")

/-- `residue["CA"].coord`: the first atom named `CA` (the default is never
reached on residues passing the `hasCA` filter). -/
def ca_coord (r : Residue) : Vec3 :=
  match r.atoms.find? (fun a => a.1 == "CA") with
  | some a => a.2
  | none => ((0 : ℚ), (0 : ℚ), (0 : ℚ))

/-- The Cα collection loop of `get_distance_matrix` (protein.py lines 66-70):
keeps residues with a blank hetero flag (`residue.id[0] == " "`) that contain
a `CA` atom. -/
def ca_atoms_distance (residues : List Residue) : List Vec3 :=
  (residues.filter (fun r => r.het == " " && hasCA r)).map ca_coord

/-- The Cα collection loop of `compute_quaternions` (protein.py
lines 144-148): keeps every residue containing a `CA` atom, with no
hetero-flag condition. -/
def ca_atoms_quaternion (residues : List Residue) : List Vec3 :=
  (residues.filter hasCA).map ca_coord

/-- Componentwise difference `a - b` of two coordinates. -/
def vsub (a b : Vec3) : Vec3 := (a.1 - b.1, a.2.1 - b.2.1, a.2.2 - b.2.2)

/-- `np.sum(distance * distance)` for `distance = a - b`: the squared
Euclidean distance, exact in `ℚ`. -/
def distSq (a b : Vec3) : ℚ :=
  (a.1 - b.1) ^ 2 + (a.2.1 - b.2.1) ^ 2 + (a.2.2 - b.2.2) ^ 2

/-- Denotation of the distance-filling loop of `get_distance_matrix`
(protein.py lines 77-82): entry `(i, j)` of the `np.zeros` matrix after the
loop. For `i < j` it is set in iteration `(i, j)` to
`sqrt(sum((ca[i] - ca[j])²))`; for `j < i` the same iteration `(j, i)` set it
to the identical value; the diagonal is never written and keeps the exact
zero of `np.zeros`. -/
def dm_entry (sqrtQ : ℚ → ℚ) (cas : List Vec3) (i j : ℕ) : ℚ :=
  if i < j then sqrtQ (distSq (cas.getD i (0, 0, 0)) (cas.getD j (0, 0, 0)))
  else if j < i then sqrtQ (distSq (cas.getD j (0, 0, 0)) (cas.getD i (0, 0, 0)))
  else 0

/-- `get_distance_matrix(pdb)` (protein.py lines 47-84) from the parsed
residue list: an `R × R` row-major matrix over the filtered Cα atoms, with
`sqrtQ` standing for `np.sqrt`. -/
def get_distance_matrix (sqrtQ : ℚ → ℚ) (residues : List Residue) : List (List ℚ) :=
  (List.range (ca_atoms_distance residues).length).map
    (fun i => (List.range (ca_atoms_distance residues).length).map
      (fun j => dm_entry sqrtQ (ca_atoms_distance residues) i j))

/-- The row-major strict-upper-triangle index pairs `np.triu_indices(n, k=1)`
selects. -/
def triu_pairs (n : ℕ) : List (ℕ × ℕ) :=
  ((List.range n).map (fun i => ((List.range n).filter (fun j => i < j)).map (fun j => (i, j)))).flatten

/-- `flatten_distance_matrix(distance_matrix)` (protein.py lines 87-99): reads
the strict upper triangle row-major, then asserts
`result.size == shape[0] ** 2 / 2 - shape[0]` — with Python's true division,
the right-hand side is the rational `n²/2 - n`. A failing assert raises
`AssertionError`. -/
def flatten_distance_matrix (m : List (List ℚ)) : Except String (List ℚ) :=
  let n := m.length
  let result := (triu_pairs n).map (fun ij => (m.getD ij.1 []).getD ij.2 0)
  if (result.length : ℚ) = ((n : ℚ)) ^ 2 / 2 - (n : ℚ) then Except.ok result
  else Except.error "AssertionError"

/-- IEEE division as numpy performs it, with the finite/non-finite split made
explicit: a zero divisor yields a non-finite value (`0/0` is NaN, `x/0` is
±Inf), modelled `none`; otherwise the exact rational quotient. No exception
is ever raised. -/
def fdiv (a b : ℚ) : Option ℚ := if b = 0 then none else some (a / b)

/-- `np.sum(v**2)` of a 3-vector. -/
def normSq3 (v : Vec3) : ℚ := v.1 ^ 2 + v.2.1 ^ 2 + v.2.2 ^ 2

/-- `vec / np.linalg.norm(vec)` (protein.py line 154): componentwise division
by `sqrtQ` of the squared norm, each component `none` when the norm is zero. -/
def normalize_vec (sqrtQ : ℚ → ℚ) (v : Vec3) : Option ℚ × Option ℚ × Option ℚ :=
  let n := sqrtQ (normSq3 v)
  (fdiv v.1 n, fdiv v.2.1 n, fdiv v.2.2 n)

/-- The tangent-vector loop of `compute_quaternions` (protein.py
lines 150-154): for each consecutive pair of Cα coordinates, the normalized
difference vector. The loop contains no degeneracy check and raises no
exception. -/
def tangent_vectors (sqrtQ : ℚ → ℚ) (cas : List Vec3) :
    List (Option ℚ × Option ℚ × Option ℚ) :=
  (cas.zip cas.tail).map (fun p => normalize_vec sqrtQ (vsub p.2 p.1))

/-- `np.cross(v1, v2)`. -/
def cross3 (v1 v2 : Vec3) : Vec3 :=
  (v1.2.1 * v2.2.2 - v1.2.2 * v2.2.1,
   v1.2.2 * v2.1 - v1.1 * v2.2.2,
   v1.1 * v2.2.1 - v1.2.1 * v2.1)

/-- `np.dot(v1, v2)`. -/
def dot3 (v1 v2 : Vec3) : ℚ :=
  v1.1 * v2.1 + v1.2.1 * v2.2.1 + v1.2.2 * v2.2.2

/-- `quaternion_from_vectors(v1, v2)` (protein.py lines 169-190): scalar part
`sqrt(|v1|²|v2|²) + v1·v2`, vector part `v1 × v2`, then normalization of the
4-vector by its norm. The function contains no degeneracy check: when the
4-vector is zero its norm is zero and every component of the result is the
non-finite `none`. -/
def quaternion_from_vectors (sqrtQ : ℚ → ℚ) (v1 v2 : Vec3) :
    Option ℚ × Option ℚ × Option ℚ × Option ℚ :=
  let v_cross := cross3 v1 v2
  let v_dot := dot3 v1 v2
  let q0 := sqrtQ (normSq3 v1 * normSq3 v2) + v_dot
  let qnorm := sqrtQ (q0 ^ 2 + normSq3 v_cross)
  (fdiv q0 qnorm, fdiv v_cross.1 qnorm, fdiv v_cross.2.1 qnorm, fdiv v_cross.2.2 qnorm)

/-- Entry `(i, j)` of a row-major rational matrix (out-of-range reads default
to `0`; every theorem using it carries in-range bounds). -/
def matrix_entry (m : List (List ℚ)) (i j : ℕ) : ℚ := (m.getD i []).getD j 0

/-! ### Concrete instances used by witnesses and counterexamples -/

/-- A standard (blank hetero flag) residue with a Cα at the origin. -/
def std_residue : Residue := ⟨" ", [("CA", ((0 : ℚ), (0 : ℚ), (0 : ℚ)))]⟩

/-- A second standard residue with a Cα at `(1, 0, 0)`. -/
def std_residue2 : Residue := ⟨" ", [("CA", ((1 : ℚ), (0 : ℚ), (0 : ℚ)))]⟩

/-- A hetero residue (non-blank hetero flag, as a bound ligand would have)
that nevertheless contains a `CA` atom. -/
def het_residue : Residue := ⟨"H_LIG", [("CA", ((1 : ℚ), (0 : ℚ), (0 : ℚ)))]⟩

/-- The empty cache store. -/
def empty_fs : FileSys := fun _ => none

/-- A stand-in structure predictor for concrete runs: one output per input,
in order. -/
def echo_predict : List String → List String := fun l => l.map (fun s => "PDB:" ++ s)

/-- A cache store already holding entries for sequences `"A"` and `"C"`
(under the process salt `(0, 0)`). -/
def cacheAC_fs : FileSys :=
  writeFile (writeFile empty_fs (make_pdb_path 0 0 "A") "PDB:A") (make_pdb_path 0 0 "C") "PDB:C"

/-! ## Helper lemmas -/

/-- A path written by no iteration of the `generate_pdbs` write loop is left
unchanged by it. -/
theorem write_pdbs_eq_of_not_mem (k0 k1 : Nat) (fs : FileSys) (ss ps : List String)
    (k : String) (hk : k ∉ ss.map (make_pdb_path k0 k1)) :
    write_pdbs k0 k1 fs ss ps k = fs k := by
  induction ss generalizing fs ps with
  | nil => cases ps <;> rfl
  | cons s ss ih =>
    cases ps with
    | nil => rfl
    | cons p ps =>
      simp only [List.map_cons, List.mem_cons, not_or] at hk
      rw [write_pdbs, ih _ _ hk.2]
      simp [writeFile, hk.1]

/-- After the `generate_pdbs` write loop, a sequence whose path is not
rewritten by any later iteration holds its own pdb. -/
theorem write_pdbs_getD (k0 k1 : Nat) (ss : List String) :
    ∀ (ps : List String) (fs : FileSys) (i : ℕ), i < ss.length → i < ps.length →
      make_pdb_path k0 k1 (ss.getD i "") ∉ ((ss.drop (i + 1)).map (make_pdb_path k0 k1)) →
      write_pdbs k0 k1 fs ss ps (make_pdb_path k0 k1 (ss.getD i "")) = some (ps.getD i "") := by
  induction ss with
  | nil => intro ps fs i hi _ _; exact absurd hi (by simp)
  | cons s ss ih =>
    intro ps fs i hi hip hfresh
    cases ps with
    | nil => exact absurd hip (by simp)
    | cons p ps =>
      cases i with
      | zero =>
        rw [write_pdbs, write_pdbs_eq_of_not_mem _ _ _ _ _ _ (by simpa using hfresh)]
        simp [writeFile]
      | succ i =>
        rw [write_pdbs]
        exact ih ps _ i (by simpa using hi) (by simpa using hip) (by simpa using hfresh)

/-- The distance matrix has one row per filtered Cα atom. -/
theorem get_distance_matrix_length (sqrtQ : ℚ → ℚ) (residues : List Residue) :
    (get_distance_matrix sqrtQ residues).length = (ca_atoms_distance residues).length := by
  simp [get_distance_matrix]

/-- In range, an entry of `get_distance_matrix` is the loop denotation
`dm_entry`. -/
theorem get_distance_matrix_entry (sqrtQ : ℚ → ℚ) (residues : List Residue) (i j : ℕ)
    (hi : i < (ca_atoms_distance residues).length)
    (hj : j < (ca_atoms_distance residues).length) :
    matrix_entry (get_distance_matrix sqrtQ residues) i j =
      dm_entry sqrtQ (ca_atoms_distance residues) i j := by
  have h1 : (get_distance_matrix sqrtQ residues).getD i [] =
      (List.range (ca_atoms_distance residues).length).map
        (fun j => dm_entry sqrtQ (ca_atoms_distance residues) i j) := by
    unfold get_distance_matrix
    rw [List.getD_eq_getElem _ _ (by simpa using hi)]
    rw [List.getElem_map, List.getElem_range]
  unfold matrix_entry
  rw [h1, List.getD_eq_getElem _ _ (by simpa using hj), List.getElem_map, List.getElem_range]

/-- `dm_entry` is symmetric: the loop writes the one computed value to both
`(i, j)` and `(j, i)`. -/
theorem dm_entry_symm (sqrtQ : ℚ → ℚ) (cas : List Vec3) (i j : ℕ) :
    dm_entry sqrtQ cas i j = dm_entry sqrtQ cas j i := by
  unfold dm_entry
  rcases lt_trichotomy i j with h | h | h
  · simp [h, Nat.lt_asymm h]
  · simp [h]
  · simp [h, Nat.lt_asymm h]

/-! ## Claim theorems -/

/-- Claim C1: the claim says `flatten_distance_matrix` returns without error on
every `R×R` matrix with output length `R(R-1)/2`, the internal assertion
succeeding on every input. On the code this fails: the assertion compares the
output length to `R²/2 - R` (not `R(R-1)/2`), so it raises `AssertionError`
for every `R ≥ 1`; already the `1×1` matrix `[[0]]` fails, while the `0×0`
matrix still succeeds with an empty output. -/
theorem flatten_assert_fails_on_1x1 :
    flatten_distance_matrix [[0]] = Except.error "AssertionError" ∧
    flatten_distance_matrix ([] : List (List ℚ)) = Except.ok [] := by
  constructor
  · norm_num [flatten_distance_matrix, triu_pairs, List.range_succ]
  · norm_num [flatten_distance_matrix, triu_pairs]

/-- Claim C2: the claim says the cache key `make_pdb_path(s)` is identical
across two arbitrary runs and processes. On the code this fails: the key is
built from CPython's builtin `hash`, which is salted per process; under two
different process hash secrets, `(0, 0)` and `(1, 0)`, the sequence `"A"` is
mapped to two different cache paths. -/
theorem make_pdb_path_depends_on_salt :
    (make_pdb_path 0 0 "A" == make_pdb_path 1 0 "A") = false := by decide

/-- Claim C3: the claim says that after `generate_pdbs([s])` populates the
cache, `load_pdbs([s])` returns the persisted structure equal to the original
prediction. On the code this fails: `load_pdbs` reads the cached files into a
local list but has no `return` statement, so it returns `None`
(`Option.none`), not the prediction `["PDB:A"]`. -/
theorem load_pdbs_returns_none_after_generate :
    load_pdbs 0 0 (generate_pdbs echo_predict 0 0 empty_fs ["A"]).fs ["A"] = Except.ok none ∧
    (generate_pdbs echo_predict 0 0 empty_fs ["A"]).pdbs = ["PDB:A"] ∧
    ((none : Option (List String)) == some ["PDB:A"]) = false :=
  ⟨rfl, rfl, rfl⟩

/-- Claim C4: the claim says coincident consecutive Cα coordinates make the
tangent-vector computation raise `DegenerateVectorError`. On the code this
fails: the loop normalizes unconditionally, divides by the zero norm, and
yields a NaN vector (every component the non-finite `none`); no exception is
raised (the code contains no such error class), for any model of `np.sqrt`
with `sqrtQ 0 = 0`. -/
theorem tangent_on_coincident_cas_is_nan (sqrtQ : ℚ → ℚ) (h : sqrtQ 0 = 0) :
    tangent_vectors sqrtQ
        [((0 : ℚ), (0 : ℚ), (0 : ℚ)), ((0 : ℚ), (0 : ℚ), (0 : ℚ))] =
      [(none, none, none)] := by
  norm_num [tangent_vectors, normalize_vec, fdiv, normSq3, vsub, h]

/-- Witness for the C4 theorem at the concrete square root `fun _ => 0`. -/
theorem tangent_on_coincident_cas_is_nan_witness :
    (fun _ : ℚ => (0 : ℚ)) 0 = 0 ∧
    tangent_vectors (fun _ : ℚ => (0 : ℚ))
        [((0 : ℚ), (0 : ℚ), (0 : ℚ)), ((0 : ℚ), (0 : ℚ), (0 : ℚ))] =
      [(none, none, none)] :=
  ⟨rfl, tangent_on_coincident_cas_is_nan (fun _ => 0) rfl⟩

/-- Claim C5: the claim says exactly opposite consecutive tangent vectors make
the quaternion computation raise `DegenerateRotationError`. On the code this
fails: for `v1 = (1,0,0)` and `v2 = (-1,0,0)` both the scalar and the vector
part are exactly zero, the 4-vector is normalized by its zero norm anyway,
and the result is a NaN quaternion (all four components the non-finite
`none`); no exception is raised (the code contains no such error class). -/
theorem quaternion_on_opposite_vectors_is_nan (sqrtQ : ℚ → ℚ)
    (h0 : sqrtQ 0 = 0) (h1 : sqrtQ 1 = 1) :
    quaternion_from_vectors sqrtQ ((1 : ℚ), (0 : ℚ), (0 : ℚ)) ((-1 : ℚ), (0 : ℚ), (0 : ℚ)) =
      (none, none, none, none) := by
  norm_num [quaternion_from_vectors, fdiv, normSq3, dot3, cross3, h0, h1]

/-- Witness for the C5 theorem at the concrete square root `id`. -/
theorem quaternion_on_opposite_vectors_is_nan_witness :
    (id (0 : ℚ) = 0 ∧ id (1 : ℚ) = 1) ∧
    quaternion_from_vectors id ((1 : ℚ), (0 : ℚ), (0 : ℚ)) ((-1 : ℚ), (0 : ℚ), (0 : ℚ)) =
      (none, none, none, none) :=
  ⟨⟨rfl, rfl⟩, quaternion_on_opposite_vectors_is_nan id rfl rfl⟩

/-- Claim C6 counterexample: with sequences `["A", "C", "D"]` of which `"A"`
and `"C"` are already cached, the claim says the predictor is invoked with
only the uncached `["D"]`; the code invokes it with the full batch
`["A", "C", "D"]` — `generate_pdbs` never reads the cache. -/
theorem generate_pdbs_ignores_cache :
    (generate_pdbs echo_predict 0 0 cacheAC_fs ["A", "C", "D"]).predictorCalls =
      [["A", "C", "D"]] ∧
    (([["A", "C", "D"]] : List (List String)) == [["D"]]) = false :=
  ⟨rfl, rfl⟩

/-- Claim C6 as amended: on every input batch, `generate_pdbs` invokes the
predictor exactly once with the entire input batch (cached or not — it
consults no cache), returns exactly the predictor's outputs in input order,
and persists each predicted pdb under its sequence's key (a later duplicate
of the same path overwrites an earlier one). -/
theorem generate_pdbs_full_batch (predict : List String → List String) (k0 k1 : Nat)
    (fs : FileSys) (sequences : List String) (i : ℕ)
    (hlen : (predict sequences).length = sequences.length)
    (hi : i < sequences.length)
    (hfresh : make_pdb_path k0 k1 (sequences.getD i "") ∉
      ((sequences.drop (i + 1)).map (make_pdb_path k0 k1))) :
    (generate_pdbs predict k0 k1 fs sequences).predictorCalls = [sequences] ∧
    (generate_pdbs predict k0 k1 fs sequences).pdbs = predict sequences ∧
    (generate_pdbs predict k0 k1 fs sequences).fs
        (make_pdb_path k0 k1 (sequences.getD i "")) =
      some ((predict sequences).getD i "") :=
  ⟨rfl, rfl, write_pdbs_getD k0 k1 sequences (predict sequences) fs i hi (hlen ▸ hi) hfresh⟩

/-- Witness for the amended C6 theorem on the one-sequence batch `["A"]`. -/
theorem generate_pdbs_full_batch_witness :
    ((echo_predict ["A"]).length = (["A"] : List String).length ∧
      0 < (["A"] : List String).length ∧
      make_pdb_path 0 0 ((["A"] : List String).getD 0 "") ∉
        (((["A"] : List String).drop 1).map (make_pdb_path 0 0))) ∧
    ((generate_pdbs echo_predict 0 0 empty_fs ["A"]).predictorCalls = [["A"]] ∧
      (generate_pdbs echo_predict 0 0 empty_fs ["A"]).pdbs = echo_predict ["A"] ∧
      (generate_pdbs echo_predict 0 0 empty_fs ["A"]).fs
          (make_pdb_path 0 0 ((["A"] : List String).getD 0 "")) =
        some ((echo_predict ["A"]).getD 0 "")) :=
  ⟨⟨rfl, by norm_num, by simp⟩,
    generate_pdbs_full_batch echo_predict 0 0 empty_fs ["A"] 0 rfl (by norm_num) (by simp)⟩

/-- Claim C7: every matrix produced by `get_distance_matrix` is symmetric with
an exactly zero diagonal, at all in-range indices. -/
theorem distance_matrix_symm_zero_diag (sqrtQ : ℚ → ℚ) (residues : List Residue) (i j : ℕ)
    (hi : i < (get_distance_matrix sqrtQ residues).length)
    (hj : j < (get_distance_matrix sqrtQ residues).length) :
    matrix_entry (get_distance_matrix sqrtQ residues) i j =
      matrix_entry (get_distance_matrix sqrtQ residues) j i ∧
    matrix_entry (get_distance_matrix sqrtQ residues) i i = 0 := by
  rw [get_distance_matrix_length] at hi hj
  rw [get_distance_matrix_entry _ _ _ _ hi hj, get_distance_matrix_entry _ _ _ _ hj hi,
    get_distance_matrix_entry _ _ _ _ hi hi]
  exact ⟨dm_entry_symm sqrtQ _ i j, by simp [dm_entry]⟩

/-- Witness for the C7 theorem on a concrete two-residue structure. -/
theorem distance_matrix_symm_zero_diag_witness :
    (0 < (get_distance_matrix (fun _ => 0) [std_residue, std_residue2]).length ∧
      1 < (get_distance_matrix (fun _ => 0) [std_residue, std_residue2]).length) ∧
    (matrix_entry (get_distance_matrix (fun _ => 0) [std_residue, std_residue2]) 0 1 =
        matrix_entry (get_distance_matrix (fun _ => 0) [std_residue, std_residue2]) 1 0 ∧
      matrix_entry (get_distance_matrix (fun _ => 0) [std_residue, std_residue2]) 0 0 = 0) := by
  have h0 : 0 < (get_distance_matrix (fun _ => 0) [std_residue, std_residue2]).length := by
    rw [get_distance_matrix_length]
    norm_num [ca_atoms_distance, std_residue, std_residue2, hasCA]
  have h1 : 1 < (get_distance_matrix (fun _ => 0) [std_residue, std_residue2]).length := by
    rw [get_distance_matrix_length]
    norm_num [ca_atoms_distance, std_residue, std_residue2, hasCA]
  exact ⟨⟨h0, h1⟩, distance_matrix_symm_zero_diag (fun _ => 0) [std_residue, std_residue2] 0 1 h0 h1⟩

/-- Claim C8 counterexample: a structure with exactly one qualifying residue.
The claim says `get_distance_matrix` returns an empty `0×0` matrix; the code
returns the `1×1` zero matrix `[[0]]`. -/
theorem distance_matrix_single_residue_1x1 :
    get_distance_matrix (fun _ => 0) [std_residue] = [[0]] ∧
    (([[(0 : ℚ)]] : List (List ℚ)) == ([] : List (List ℚ))) = false := by
  constructor
  · norm_num [get_distance_matrix, ca_atoms_distance, std_residue, hasCA, ca_coord,
      dm_entry, List.range]
    rfl
  · rfl

/-- Claim C8 as amended: with fewer than 2 qualifying residues,
`get_distance_matrix` returns the `R×R` all-zero matrix without error — the
`0×0` empty matrix for `R = 0`, and the `1×1` zero matrix `[[0]]` for
`R = 1` (not the empty matrix). -/
theorem distance_matrix_small_zero_square (sqrtQ : ℚ → ℚ) (residues : List Residue)
    (h : (ca_atoms_distance residues).length ≤ 1) :
    get_distance_matrix sqrtQ residues =
      List.replicate (ca_atoms_distance residues).length
        (List.replicate (ca_atoms_distance residues).length 0) := by
  rcases Nat.le_one_iff_eq_zero_or_eq_one.mp h with h01 | h01
  · simp [get_distance_matrix, h01]
  · simp [get_distance_matrix, h01, List.range_succ, dm_entry, List.replicate]

/-- Witness for the amended C8 theorem on a one-residue structure. -/
theorem distance_matrix_small_zero_square_witness :
    (ca_atoms_distance [std_residue]).length ≤ 1 ∧
    get_distance_matrix (fun _ => 0) [std_residue] =
      List.replicate (ca_atoms_distance [std_residue]).length
        (List.replicate (ca_atoms_distance [std_residue]).length 0) := by
  have h : (ca_atoms_distance [std_residue]).length ≤ 1 := by
    norm_num [ca_atoms_distance, std_residue, hasCA]
  exact ⟨h, distance_matrix_small_zero_square (fun _ => 0) [std_residue] h⟩

/-- Claim C9: for `nResidues ≥ 1`, `get_max_physical_protein_length_A`
returns exactly `(nResidues - 1) * 3.8` angstroms, as the specification words
it (with the count difference over the naturals). -/
theorem max_physical_length_matches_spec (n : ℕ) (h : 1 ≤ n) :
    get_max_physical_protein_length_A n = spec_max_physical_length n := by
  rcases n with _ | k
  · exact absurd h (by norm_num)
  · unfold get_max_physical_protein_length_A spec_max_physical_length AMINO_ACID_LENGTH_ANGSTROM
    push_cast
    ring

/-- Witness for the C9 theorem at `nResidues = 3`. -/
theorem max_physical_length_matches_spec_witness :
    1 ≤ 3 ∧ get_max_physical_protein_length_A 3 = spec_max_physical_length 3 :=
  ⟨by norm_num, max_physical_length_matches_spec 3 (by norm_num)⟩

/-- Claim C10: the residue filters of the two descriptor functions differ —
`get_distance_matrix` keeps only blank-hetero-flag residues bearing a `CA`
atom while `compute_quaternions` keeps every `CA`-bearing residue — so there
is a parsed structure whose two underlying Cα sequences differ (here: one
standard residue plus one `CA`-bearing hetero residue). -/
theorem ca_selection_filters_differ :
    ∃ residues : List Residue, ca_atoms_distance residues ≠ ca_atoms_quaternion residues := by
  refine ⟨[std_residue, het_residue], fun h => ?_⟩
  simpa [ca_atoms_distance, ca_atoms_quaternion, std_residue, het_residue, hasCA] using
    congrArg List.length h
